import Mathlib

/-!
# Verification of the sccache server core (`src/server.rs`)

Shallow embedding of the server-side request lifecycle of the sccache
compiler-cache daemon: the compiler-info cache with mtime invalidation,
the compile-request handling of `SccacheService`, the statistics record,
the length-delimited protobuf framing codec, and the idle/shutdown
supervisor.  Rust `u64` counters are modelled as `Nat` (the claims never
exercise overflow), `std::time::Duration` as a count of nanoseconds,
byte buffers as `List Nat` with each element below 256.
-/

namespace Sccache

/-! ## Data model -/

/-- A detected compiler record (`compiler::Compiler`).  Only the fields the
server consults are modelled: the executable path and the modification time
(`FileTime` modelled as `Nat`) recorded at detection time. -/
structure Compiler where
  executable : String
  mtime : Nat
  deriving DecidableEq, Repr

/-- The process output captured from a subprocess (`std::process::Output`):
`status.code()` is `none` when the process exited by signal. -/
structure Output where
  status : Option Int
  stdout : List Nat
  stderr : List Nat
  deriving DecidableEq, Repr

/-- `compiler::MissType` as matched in `start_compile_task`. -/
inductive MissType where
  | normal
  | cacheReadError
  | forcedRecache
  deriving DecidableEq, Repr

/-- Information about a finished cache write (`CacheWriteInfo`), as consumed
by the write-back continuation of `start_compile_task`. -/
structure CacheWriteInfo where
  object_file : String
  duration : Nat
  deriving DecidableEq, Repr

/-- The eventual outcome of the scheduled cache write-back future carried
inside `CompileResult::CacheMiss`. -/
inductive CacheWriteOutcome where
  | failed (msg : String)
  | finished (info : Option CacheWriteInfo)
  deriving DecidableEq, Repr

/-- `compiler::CompileResult` as matched in `start_compile_task`.  The
futures-based write-back handle is modelled by the outcome it eventually
produces. -/
inductive CompileResult where
  | error
  | cacheHit (duration : Nat)
  | cacheMiss (t : MissType) (duration : Nat) (write : CacheWriteOutcome)
  | notCacheable
  | compileFailed
  deriving DecidableEq, Repr

/-- `compiler::CacheControl`. -/
inductive CacheControl where
  | default
  | forceRecache
  deriving DecidableEq, Repr

/-- `compiler::CompilerArguments`: result of argument classification. -/
inductive CompilerArguments where
  | ok (outputFiles : List String)
  | cannotCache
  | notCompilation
  deriving DecidableEq, Repr

/-- `ServerStats` (src/server.rs): counters are `u64`, the three duration
accumulators are `Duration` (here: nanoseconds). -/
structure ServerStats where
  compile_requests : Nat
  requests_unsupported_compiler : Nat
  requests_not_compile : Nat
  requests_not_cacheable : Nat
  requests_executed : Nat
  cache_errors : Nat
  cache_hits : Nat
  cache_misses : Nat
  non_cacheable_compilations : Nat
  forced_recaches : Nat
  cache_read_errors : Nat
  cache_write_errors : Nat
  cache_writes : Nat
  cache_write_duration : Nat
  cache_read_hit_duration : Nat
  cache_read_miss_duration : Nat
  compile_fails : Nat
  deriving DecidableEq, Repr

/-- `ServerStats::default()`: every counter and duration zero. -/
def ServerStats.default : ServerStats :=
  { compile_requests := 0
    requests_unsupported_compiler := 0
    requests_not_compile := 0
    requests_not_cacheable := 0
    requests_executed := 0
    cache_errors := 0
    cache_hits := 0
    cache_misses := 0
    non_cacheable_compilations := 0
    forced_recaches := 0
    cache_read_errors := 0
    cache_write_errors := 0
    cache_writes := 0
    cache_write_duration := 0
    cache_read_hit_duration := 0
    cache_read_miss_duration := 0
    compile_fails := 0 }

/-! ## The compile task (`SccacheService::start_compile_task`) -/

/-- The `CompileFinished` protobuf message built by the compile task:
`retcode` is set from `status.code()` (absent on exit-by-signal), or to the
sentinel `-2` on an internal error. -/
structure CompileFinished where
  retcode : Option Int
  stdout : List Nat
  stderr : List Nat
  deriving DecidableEq, Repr

/-- One `ServerResponse` protobuf message (the one-of union). -/
inductive ServerResponseMsg where
  | compileStarted
  | compileFinished (f : CompileFinished)
  | unhandledCompile
  | unknownCommand
  deriving DecidableEq, Repr

/-- The choice of cache control at the top of `start_compile_task`:
`ForceRecache` exactly when the service's `force_recache` flag is set
(i.e. `SCCACHE_RECACHE` was present in the environment). -/
def cacheControlFor (force_recache : Bool) : CacheControl :=
  if force_recache then CacheControl.forceRecache else CacheControl.default

/-- Statistics update performed by the compile-task continuation for the
`Ok((compiled, _))` arm of `start_compile_task`. -/
def statsAfterCompile (s : ServerStats) : CompileResult → ServerStats
  | CompileResult.error =>
      { s with cache_errors := s.cache_errors + 1 }
  | CompileResult.cacheHit d =>
      { s with cache_hits := s.cache_hits + 1,
               cache_read_hit_duration := s.cache_read_hit_duration + d }
  | CompileResult.cacheMiss t d _ =>
      let s' :=
        match t with
        | MissType.normal =>
            { s with cache_misses := s.cache_misses + 1 }
        | MissType.cacheReadError =>
            { s with cache_read_errors := s.cache_read_errors + 1 }
        | MissType.forcedRecache =>
            { s with cache_misses := s.cache_misses + 1,
                     forced_recaches := s.forced_recaches + 1 }
      { s' with cache_read_miss_duration := s'.cache_read_miss_duration + d }
  | CompileResult.notCacheable =>
      { s with cache_misses := s.cache_misses + 1,
               non_cacheable_compilations := s.non_cacheable_compilations + 1 }
  | CompileResult.compileFailed =>
      { s with compile_fails := s.compile_fails + 1 }

/-- The write-back future extracted by the compile-task continuation:
`cache_write` is set only in the `CacheMiss` arm. -/
def cacheWriteOf : CompileResult → Option CacheWriteOutcome
  | CompileResult.cacheMiss _ _ f => some f
  | _ => none

/-- Effect of the `result.then(...)` continuation inside
`start_compile_task` (src/server.rs lines 533-587): updated statistics, the
single `CompileFinished` frame sent on the body channel, and the scheduled
cache-write future, if any. -/
def compile_task (s : ServerStats) (result : Except Unit (CompileResult × Output)) :
    ServerStats × CompileFinished × Option CacheWriteOutcome :=
  match result with
  | Except.ok (compiled, out) =>
      (statsAfterCompile s compiled,
       { retcode := out.status, stdout := out.stdout, stderr := out.stderr },
       cacheWriteOf compiled)
  | Except.error _ =>
      ({ s with cache_errors := s.cache_errors + 1 },
       { retcode := some (-2), stdout := [], stderr := [] },
       none)

/-- Statistics update performed by the nested `cache_write.then(...)`
continuation once the scheduled write-back resolves. -/
def cache_write_step (s : ServerStats) : CacheWriteOutcome → ServerStats
  | CacheWriteOutcome.failed _ =>
      { s with cache_write_errors := s.cache_write_errors + 1 }
  | CacheWriteOutcome.finished (some info) =>
      { s with cache_writes := s.cache_writes + 1,
               cache_write_duration := s.cache_write_duration + info.duration }
  | CacheWriteOutcome.finished none => s

/-! ## Response shape (`SccacheService::check_compiler`) -/

/-- A streaming service response: either a head message with a streamed body
of further messages (`Message::WithBody`) or a lone message
(`Message::WithoutBody`). -/
inductive SccacheResponse where
  | withBody (head : ServerResponseMsg) (body : List ServerResponseMsg)
  | withoutBody (head : ServerResponseMsg)
  deriving DecidableEq, Repr

/-- The body stream produced by an accepted compile: `start_compile_task`
sends exactly one `Ok(res)` (the `CompileFinished` frame) on the body
channel, after which the sender is dropped and the stream terminates. -/
def compileBody (s : ServerStats) (result : Except Unit (CompileResult × Output)) :
    List ServerResponseMsg :=
  [ServerResponseMsg.compileFinished (compile_task s result).2.1]

/-- `SccacheService::check_compiler` (src/server.rs lines 476-511): argument
classification decides between a streaming `CompileStarted` response and a
lone `UnhandledCompile`.  `parse` stands for `c.parse_arguments(&cmd, cwd)`
of the external compiler module; `result` is the eventual outcome of the
spawned compile pipeline, used to form the body stream. -/
def check_compiler (s : ServerStats) (compiler : Option Compiler)
    (parse : List String → String → CompilerArguments)
    (cmd : List String) (cwd : String)
    (result : Except Unit (CompileResult × Output)) :
    ServerStats × SccacheResponse :=
  match compiler with
  | none =>
      ({ s with requests_unsupported_compiler := s.requests_unsupported_compiler + 1 },
       SccacheResponse.withoutBody ServerResponseMsg.unhandledCompile)
  | some _ =>
      match parse cmd cwd with
      | CompilerArguments.ok _ =>
          ({ s with requests_executed := s.requests_executed + 1 },
           SccacheResponse.withBody ServerResponseMsg.compileStarted
             (compileBody s result))
      | CompilerArguments.cannotCache =>
          ({ s with requests_not_cacheable := s.requests_not_cacheable + 1 },
           SccacheResponse.withoutBody ServerResponseMsg.unhandledCompile)
      | CompilerArguments.notCompilation =>
          ({ s with requests_not_compile := s.requests_not_compile + 1 },
           SccacheResponse.withoutBody ServerResponseMsg.unhandledCompile)

/-! ## The cache probe / compile pipeline (compiler module, not in src) -/

/-- Outcome of `Storage::get` on the fingerprint (spec 4.A):
hit with the cached output, miss, or read error. -/
inductive CacheProbe where
  | hit (duration : Nat) (cached : Output)
  | miss (duration : Nat)
  | probeError (duration : Nat)
  deriving DecidableEq, Repr

/-- Modelled from the spec: `Compiler::get_cached_or_compile` lives in the
compiler module, which is not part of src.  Per spec 4.D: under
`force-recache` the cache read is skipped entirely and the compile runs with
a write-back scheduled (miss type `ForcedRecache`); under default control
the storage probe decides: a hit serves the cached output, a miss or a read
error runs the compile and schedules the write-back (miss types `Normal` /
`CacheReadError`).  A compile that exits nonzero yields `CompileFailed`
with no cache write; a successful compile whose outputs cannot be cached
yields `NotCacheable`. -/
def get_cached_or_compile (ctrl : CacheControl) (probe : CacheProbe)
    (compileOut : Output) (cacheable : Bool) (writeBack : CacheWriteOutcome) :
    CompileResult × Output :=
  match ctrl with
  | CacheControl.forceRecache =>
      if compileOut.status = some 0 then
        if cacheable then
          (CompileResult.cacheMiss MissType.forcedRecache 0 writeBack, compileOut)
        else
          (CompileResult.notCacheable, compileOut)
      else
        (CompileResult.compileFailed, compileOut)
  | CacheControl.default =>
      match probe with
      | CacheProbe.hit d cached => (CompileResult.cacheHit d, cached)
      | CacheProbe.miss d =>
          if compileOut.status = some 0 then
            if cacheable then
              (CompileResult.cacheMiss MissType.normal d writeBack, compileOut)
            else
              (CompileResult.notCacheable, compileOut)
          else
            (CompileResult.compileFailed, compileOut)
      | CacheProbe.probeError d =>
          if compileOut.status = some 0 then
            if cacheable then
              (CompileResult.cacheMiss MissType.cacheReadError d writeBack, compileOut)
            else
              (CompileResult.notCacheable, compileOut)
          else
            (CompileResult.compileFailed, compileOut)

/-- `SccacheService::start_compile_task` (src/server.rs lines 514-611) for
a pipeline that resolves without an internal error: choose the cache
control from the `force_recache` flag, run the (spec-modelled)
`get_cached_or_compile` pipeline, and apply the result continuation.
Yields the updated statistics, the `CompileFinished` frame, and the
scheduled write-back future, if any. -/
def start_compile_task (s : ServerStats) (force_recache : Bool) (probe : CacheProbe)
    (compileOut : Output) (cacheable : Bool) (writeBack : CacheWriteOutcome) :
    ServerStats × CompileFinished × Option CacheWriteOutcome :=
  compile_task s
    (Except.ok (get_cached_or_compile (cacheControlFor force_recache) probe
      compileOut cacheable writeBack))

/-! ## Compiler-info cache (`compiler_info_cached` / `cache_compiler_info`) -/

/-- A model of `std::fs::metadata(path)` restricted to what the server
reads from it: the file's last-modification time on success, `none` when
the stat fails. -/
def FileSystem : Type := String → Option Nat

/-- The `compilers` map of the service, `HashMap<String, Option<Compiler>>`,
modelled as an association list (lookup ignores shadowed entries, matching
map semantics). -/
def CompilerMap : Type := List (String × Option Compiler)

/-- `SccacheService::compiler_info_cached` (src/server.rs lines 454-469):
stat the path; on success a cached positive record is a hit only when its
recorded mtime equals the current mtime, a cached negative record is
returned as-is, anything else (including an mtime mismatch) is a cache
miss; a failed stat is a cache miss. -/
def compiler_info_cached (fs : FileSystem) (compilers : CompilerMap)
    (path : String) : Option (Option Compiler) :=
  match fs path with
  | some mtime =>
      match compilers.lookup path with
      | some (some c) => if c.mtime = mtime then some (some c) else none
      | some none => some none
      | none => none
  | none => none

/-- `SccacheService::cache_compiler_info` (src/server.rs lines 472-474):
insert (replacing any previous entry) into the compiler map. -/
def cache_compiler_info (compilers : CompilerMap) (path : String)
    (info : Option Compiler) : CompilerMap :=
  (path, info) :: compilers.filter (fun e => e.1 ≠ path)

/-! ## Statistics report (`ServerStats::to_cache_statistics`) -/

/-- The value variant of a `CacheStatistic` protobuf message. -/
inductive StatValue where
  | count (n : Nat)
  | size (n : Nat)
  | str (s : String)
  deriving DecidableEq, Repr

/-- A `CacheStatistic` protobuf message. -/
structure CacheStatistic where
  name : String
  value : StatValue
  deriving DecidableEq, Repr

/-- Left-pad the decimal rendering of `n` with zeros to width 3, as the
Rust format directive for the millisecond field does. -/
def pad3 (n : Nat) : String :=
  if n < 10 then "00" ++ toString n
  else if n < 100 then "0" ++ toString n
  else toString n

/-- Render a duration of `nanos` nanoseconds the way
`to_cache_statistics` formats it: whole seconds, a dot, and the
zero-padded millisecond count (`subsec_nanos() / 1_000_000`). -/
def formatDuration (nanos : Nat) : String :=
  toString (nanos / 1000000000) ++ "." ++ pad3 (nanos % 1000000000 / 1000000) ++ " s"

/-- The `set_duration_stat!` macro of `to_cache_statistics`: divide the
cumulative duration by the event count only when the count is positive,
otherwise report the literal `"0.000 s"`. -/
def durationStat (name : String) (dur num : Nat) : CacheStatistic :=
  { name := name,
    value := StatValue.str (if num > 0 then formatDuration (dur / num) else "0.000 s") }

/-- The `set_stat!` macro of `to_cache_statistics`: a named counter. -/
def countStat (name : String) (n : Nat) : CacheStatistic :=
  { name := name, value := StatValue.count n }

/-- `ServerStats::to_cache_statistics` (src/server.rs lines 677-719): the
statistics vector in source order. -/
def ServerStats.to_cache_statistics (s : ServerStats) : List CacheStatistic :=
  [ countStat "Compile requests" s.compile_requests,
    countStat "Compile requests executed" s.requests_executed,
    countStat "Cache hits" s.cache_hits,
    countStat "Cache misses" s.cache_misses,
    countStat "Forced recaches" s.forced_recaches,
    countStat "Cache read errors" s.cache_read_errors,
    countStat "Cache write errors" s.cache_write_errors,
    countStat "Compilation failures" s.compile_fails,
    countStat "Cache errors" s.cache_errors,
    countStat "Successful compilations which could not be cached" s.non_cacheable_compilations,
    countStat "Non-cacheable calls" s.requests_not_cacheable,
    countStat "Non-compilation calls" s.requests_not_compile,
    countStat "Unsupported compiler calls" s.requests_unsupported_compiler,
    durationStat "Average cache write" s.cache_write_duration s.cache_writes,
    durationStat "Average cache read miss" s.cache_read_miss_duration s.cache_misses,
    durationStat "Average cache read hit" s.cache_read_hit_duration s.cache_hits ]

/-! ## Dispatcher (`SccacheService::call`) and supervisor messages -/

/-- `ServerMessage`: notifications sent to the lifecycle supervisor. -/
inductive ServerMessage where
  | request
  | shutdown
  deriving DecidableEq, Repr

/-- The kind of `ClientRequest` received (the protobuf one-of, in the
order `call` tests its fields). -/
inductive ClientReq where
  | compile (exe : String) (command : List String) (cwd : String)
  | getStats
  | zeroStats
  | shutdown
  | unknown
  deriving DecidableEq, Repr

/-- The kind of reply `call` produces. -/
inductive RespKind where
  | compileFlow
  | stats
  | shuttingDown
  | unknown
  deriving DecidableEq, Repr

/-- An observable step of `SccacheService::call`, in program order:
a best-effort `start_send` on the supervisor channel (dropped when the
channel is full), an awaited `send` on that channel (completes only once
the message is delivered), or the production of the reply. -/
inductive CallAction where
  | sendBestEffort (m : ServerMessage)
  | sendAwait (m : ServerMessage)
  | reply (r : RespKind)
  deriving DecidableEq, Repr

/-- `SccacheService::call` (src/server.rs lines 323-362) as its ordered
trace of observable actions: every request first fires a best-effort
`start_send(ServerMessage::Request)`; a shutdown request then performs an
awaited `send(ServerMessage::Shutdown)` whose completion precedes the
`ShuttingDown` reply; all other replies are produced directly. -/
def call_actions : ClientReq → List CallAction
  | ClientReq.compile _ _ _ =>
      [CallAction.sendBestEffort ServerMessage.request,
       CallAction.reply RespKind.compileFlow]
  | ClientReq.getStats =>
      [CallAction.sendBestEffort ServerMessage.request,
       CallAction.reply RespKind.stats]
  | ClientReq.zeroStats =>
      [CallAction.sendBestEffort ServerMessage.request,
       CallAction.reply RespKind.stats]
  | ClientReq.shutdown =>
      [CallAction.sendBestEffort ServerMessage.request,
       CallAction.sendAwait ServerMessage.shutdown,
       CallAction.reply RespKind.shuttingDown]
  | ClientReq.unknown =>
      [CallAction.sendBestEffort ServerMessage.request,
       CallAction.reply RespKind.unknown]

/-- The capacity-1 supervisor channel buffer.  A best-effort
`start_send` whose result is discarded (`drop(...)` in `call`) silently
drops the message when the buffer is full. -/
def try_send (ch : Option ServerMessage) (m : ServerMessage) : Option ServerMessage :=
  match ch with
  | some pending => some pending
  | none => some m

/-! ## Lifecycle supervisor (`ShutdownOrInactive::poll`) -/

/-- Result of polling the `ShutdownOrInactive` future: `ready` means the
server terminates; `notReady d` records the idle deadline left armed. -/
inductive PollResult where
  | ready
  | notReady (deadline : Nat)
  deriving DecidableEq, Repr

/-- `ShutdownOrInactive::poll` (src/server.rs lines 886-900): drain the
notification channel; a `Shutdown` message (or a closed channel) resolves
the future; every `Request` message re-arms the timeout to `timeout_dur`
from now; once the channel is drained the future is ready exactly when the
armed deadline has passed.  `now` is the poll instant, `msgs` the queued
notifications in arrival order, `closed` whether the channel reports
`Ready(None)` after the queue, `deadline` the currently armed timeout. -/
def shutdown_or_inactive_poll (now dur : Nat) :
    List ServerMessage → Bool → Nat → PollResult
  | [], closed, deadline =>
      if closed then PollResult.ready
      else if deadline ≤ now then PollResult.ready
      else PollResult.notReady deadline
  | ServerMessage.shutdown :: _, _, _ => PollResult.ready
  | ServerMessage.request :: rest, closed, _ =>
      shutdown_or_inactive_poll now dur rest closed (now + dur)

/-- An event observable by the server between two supervisor polls. -/
inductive ServerEvent where
  | clientRequest (r : ClientReq)
  | compileTaskFinished
  | cacheWriteFinished
  deriving DecidableEq, Repr

/-- The supervisor notifications an event generates (assuming channel
room): only `call` ever sends on the supervisor channel — the completion
of in-flight compile tasks and cache write-backs sends nothing. -/
def supervisor_notifications : ServerEvent → List ServerMessage
  | ServerEvent.clientRequest r =>
      (call_actions r).filterMap (fun a =>
        match a with
        | CallAction.sendBestEffort m => some m
        | CallAction.sendAwait m => some m
        | CallAction.reply _ => none)
  | ServerEvent.compileTaskFinished => []
  | ServerEvent.cacheWriteFinished => []

/-! ## Length-delimited framing (`ProtobufCodec`)

`ProtobufCodec::decode` calls `parse_length_delimited_from_bytes`, which
reads a base-128 varint length prefix and then parses that many payload
bytes as the message; `ProtobufCodec::encode` appends
`write_length_delimited_to_bytes`, a minimal varint of the payload length
followed by the payload.  Payload (de)serialization is modelled as the
identity on the payload bytes — i.e. message encodings are taken as
canonical — while the length prefix is modelled bit-for-bit: the varint
reader accepts redundant (non-minimal) encodings, is capped at 10 bytes,
and reports truncation when the buffer ends mid-varint. -/

/-- Errors of the varint reader: ran out of bytes, or exceeded the 10-byte
cap (a non-truncation wire error). -/
inductive VarintError where
  | truncated
  | malformed
  deriving DecidableEq, Repr

/-- Minimal base-128 varint encoding, least-significant group first,
continuation bit (128) on every byte but the last; structural recursion on
a fuel argument kept strictly above the value being encoded. -/
def encodeVarintAux : Nat → Nat → List Nat
  | 0, _ => []
  | fuel + 1, n =>
      if n < 128 then [n]
      else (n % 128 + 128) :: encodeVarintAux fuel (n / 128)

/-- Minimal base-128 varint encoding of `n`. -/
def encodeVarint (n : Nat) : List Nat :=
  encodeVarintAux (n + 1) n

/-- Varint reader with a byte-count cap (`fuel`): returns the decoded
value and the number of bytes consumed.  A byte below 128 terminates the
varint; a byte with the continuation bit set contributes its low 7 bits
and recurses. -/
def decodeVarintAux : Nat → List Nat → Except VarintError (Nat × Nat)
  | 0, _ => Except.error VarintError.malformed
  | _ + 1, [] => Except.error VarintError.truncated
  | fuel + 1, b :: rest =>
      if b < 128 then Except.ok (b, 1)
      else
        match decodeVarintAux fuel rest with
        | Except.ok (v, k) => Except.ok (b % 128 + 128 * v, k + 1)
        | Except.error e => Except.error e

/-- The varint reader as used for the length prefix: capped at 10 bytes. -/
def decodeVarint (buf : List Nat) : Except VarintError (Nat × Nat) :=
  decodeVarintAux 10 buf

/-- `ProtobufCodec::decode` (src/server.rs lines 828-864).  Input: the
receive buffer.  Output: `Except.error` on a structural (non-truncation)
wire error; `Except.ok (none, buf)` when more bytes are needed (nothing
consumed); `Except.ok (some payload, rest)` on success, where `rest` is
the buffer after draining `write_length_delimited_to_bytes(msg).len()`
bytes — the length of the *re-encoded* message, i.e. a minimal varint of
the payload length plus the payload. -/
def protobufDecode (buf : List Nat) : Except String (Option (List Nat) × List Nat) :=
  if buf.length = 0 then Except.ok (none, buf)
  else
    match decodeVarint buf with
    | Except.error VarintError.truncated => Except.ok (none, buf)
    | Except.error VarintError.malformed => Except.error "invalid varint"
    | Except.ok (len, k) =>
        if buf.length - k < len then Except.ok (none, buf)
        else
          let payload := (buf.drop k).take len
          let size := (encodeVarint payload.length).length + payload.length
          Except.ok (some payload, buf.drop size)

/-- `ProtobufCodec::encode` (src/server.rs lines 866-872): append the
length-delimited message (minimal varint of the payload length, then the
payload) to the output buffer. -/
def protobufEncode (msg : List Nat) (buf : List Nat) : List Nat :=
  buf ++ encodeVarint msg.length ++ msg

/-- The shape of a complete frame sitting at the front of `buf`: the
varint reader accepts a length prefix of `k` bytes decoding to `len`,
and the buffer holds exactly `k + len` bytes.  Returns `(len, k)`. -/
def frameShape (buf : List Nat) : Option (Nat × Nat) :=
  match decodeVarint buf with
  | Except.ok (len, k) => if buf.length = k + len then some (len, k) else none
  | Except.error _ => none

/-! ## Concrete test fixtures -/

/-- A filesystem in which the probed compiler executable has mtime 5. -/
def fsBefore : FileSystem :=
  fun p => if p = "/usr/bin/gcc" then some 5 else none

/-- The same filesystem after the executable was replaced: mtime 6. -/
def fsAfter : FileSystem :=
  fun p => if p = "/usr/bin/gcc" then some 6 else none

/-! ## Varint lemmas -/

theorem encodeVarintAux_congr : ∀ fuel₁ fuel₂ n : Nat, n < fuel₁ → n < fuel₂ →
    encodeVarintAux fuel₁ n = encodeVarintAux fuel₂ n := by
  intro fuel₁
  induction fuel₁ with
  | zero => intro _ n h _; omega
  | succ f ih =>
    intro fuel₂ n h1 h2
    match fuel₂ with
    | 0 => omega
    | g + 1 =>
      simp only [encodeVarintAux]
      by_cases hn : n < 128
      · simp [hn]
      · have hd : n / 128 < n := Nat.div_lt_self (by omega) (by norm_num)
        simp only [if_neg hn]
        rw [ih g (n / 128) (by omega) (by omega)]

/-- Unfolding equation of `encodeVarint` without the fuel. -/
theorem encodeVarint_eq (n : Nat) :
    encodeVarint n = if n < 128 then [n] else (n % 128 + 128) :: encodeVarint (n / 128) := by
  unfold encodeVarint
  simp only [encodeVarintAux]
  by_cases hn : n < 128
  · simp [hn]
  · have hd : n / 128 < n := Nat.div_lt_self (by omega) (by norm_num)
    simp only [if_neg hn]
    rw [encodeVarintAux_congr n (n / 128 + 1) (n / 128) (by omega) (by omega)]
    rfl

theorem encodeVarint_length_pos (n : Nat) : 1 ≤ (encodeVarint n).length := by
  rw [encodeVarint_eq]
  by_cases hn : n < 128 <;> simp [hn]

theorem encodeVarint_length_le : ∀ k n : Nat, n < 128 ^ (k + 1) →
    (encodeVarint n).length ≤ k + 1 := by
  intro k
  induction k with
  | zero =>
    intro n h
    rw [encodeVarint_eq, if_pos (by simpa using h)]
    simp
  | succ k ih =>
    intro n h
    rw [encodeVarint_eq]
    by_cases hn : n < 128
    · simp [hn]
    · simp only [if_neg hn, List.length_cons]
      have hdiv : n / 128 < 128 ^ (k + 1) := by
        rw [Nat.div_lt_iff_lt_mul (by norm_num : (0:Nat) < 128)]
        calc n < 128 ^ (k + 2) := h
          _ = 128 ^ (k + 1) * 128 := by ring
      exact Nat.succ_le_succ (ih _ hdiv)

/-- The varint reader inverts the (minimal) varint writer, for any
continuation of the buffer, provided the fuel covers the encoding. -/
theorem decodeVarintAux_encodeVarint : ∀ n : Nat, ∀ fuel rest,
    (encodeVarint n).length ≤ fuel →
    decodeVarintAux fuel (encodeVarint n ++ rest) =
      Except.ok (n, (encodeVarint n).length) := by
  intro n
  induction n using Nat.strong_induction_on with
  | _ n ih =>
    intro fuel rest hfuel
    by_cases hn : n < 128
    · rw [encodeVarint_eq, if_pos hn] at hfuel ⊢
      match fuel with
      | 0 => simp at hfuel
      | f + 1 => simp [decodeVarintAux, hn]
    · rw [encodeVarint_eq, if_neg hn] at hfuel ⊢
      match fuel with
      | 0 => simp at hfuel
      | f + 1 =>
        have hlen : (encodeVarint (n / 128)).length ≤ f := by
          simpa using hfuel
        have hd : n / 128 < n := Nat.div_lt_self (by omega) (by norm_num)
        have hrec := ih (n / 128) hd f rest hlen
        simp only [List.cons_append, decodeVarintAux, if_neg (by omega : ¬ n % 128 + 128 < 128),
          List.append_eq]
        rw [hrec]
        simp only [Except.ok.injEq, Prod.mk.injEq, List.length_cons]
        exact ⟨by omega, trivial⟩

/-- A successful varint read consumes at least one and at most
`buf.length` bytes. -/
theorem decodeVarintAux_consumed : ∀ fuel buf L k,
    decodeVarintAux fuel buf = Except.ok (L, k) → 1 ≤ k ∧ k ≤ buf.length := by
  intro fuel
  induction fuel with
  | zero => intro buf L k h; simp [decodeVarintAux] at h
  | succ f ih =>
    intro buf L k h
    match buf with
    | [] => simp [decodeVarintAux] at h
    | b :: rest =>
      by_cases hb : b < 128
      · simp [decodeVarintAux, hb] at h
        simp only [List.length_cons]
        omega
      · simp only [decodeVarintAux, if_neg hb] at h
        cases hrec : decodeVarintAux f rest with
        | ok p =>
          rw [hrec] at h
          obtain ⟨v, k'⟩ := p
          simp only [Except.ok.injEq, Prod.mk.injEq] at h
          have := ih rest v k' hrec
          simp only [List.length_cons]
          omega
        | error e => rw [hrec] at h; simp at h

/-- A successful varint read is determined by the bytes it consumed: the
same result obtains on any buffer agreeing on those `k` bytes. -/
theorem decodeVarintAux_take : ∀ fuel buf L k,
    decodeVarintAux fuel buf = Except.ok (L, k) →
    ∀ ys, decodeVarintAux fuel (buf.take k ++ ys) = Except.ok (L, k) := by
  intro fuel
  induction fuel with
  | zero => intro buf L k h; simp [decodeVarintAux] at h
  | succ f ih =>
    intro buf L k h ys
    match buf with
    | [] => simp [decodeVarintAux] at h
    | b :: rest =>
      by_cases hb : b < 128
      · simp [decodeVarintAux, hb] at h
        obtain ⟨hL, hk⟩ := h
        subst hL; subst hk
        simp [decodeVarintAux, hb]
      · simp only [decodeVarintAux, if_neg hb] at h
        cases hrec : decodeVarintAux f rest with
        | ok p =>
          rw [hrec] at h
          obtain ⟨v, k'⟩ := p
          simp only [Except.ok.injEq, Prod.mk.injEq] at h
          obtain ⟨hL, hk⟩ := h
          subst hL; subst hk
          simp only [List.take_succ_cons, List.cons_append, decodeVarintAux, if_neg hb,
            List.append_eq]
          rw [ih rest v k' hrec ys]
        | error e => rw [hrec] at h; simp at h

/-- Cutting a buffer strictly inside a successfully read varint yields a
truncation error. -/
theorem decodeVarintAux_take_truncated : ∀ fuel buf L k,
    decodeVarintAux fuel buf = Except.ok (L, k) →
    ∀ j, j < k → decodeVarintAux fuel (buf.take j) = Except.error VarintError.truncated := by
  intro fuel
  induction fuel with
  | zero => intro buf L k h; simp [decodeVarintAux] at h
  | succ f ih =>
    intro buf L k h j hj
    match buf with
    | [] => simp [decodeVarintAux] at h
    | b :: rest =>
      by_cases hb : b < 128
      · simp [decodeVarintAux, hb] at h
        match j with
        | 0 => simp [decodeVarintAux]
        | j + 1 => omega
      · simp only [decodeVarintAux, if_neg hb] at h
        cases hrec : decodeVarintAux f rest with
        | ok p =>
          rw [hrec] at h
          obtain ⟨v, k'⟩ := p
          simp only [Except.ok.injEq, Prod.mk.injEq] at h
          obtain ⟨hL, hk⟩ := h
          match j with
          | 0 => simp [decodeVarintAux]
          | j + 1 =>
            simp only [List.take_succ_cons, decodeVarintAux, if_neg hb]
            rw [ih rest v k' hrec j (by omega)]
        | error e => rw [hrec] at h; simp at h

/-! ## Decoder lemmas -/

/-- Inverting `frameShape`. -/
theorem frameShape_eq (F : List Nat) (L k : Nat) (hF : frameShape F = some (L, k)) :
    decodeVarint F = Except.ok (L, k) ∧ F.length = k + L := by
  unfold frameShape at hF
  cases hd : decodeVarint F with
  | error e => rw [hd] at hF; simp at hF
  | ok p =>
    obtain ⟨L', k'⟩ := p
    rw [hd] at hF
    simp only [] at hF
    by_cases hlen : F.length = k' + L'
    · rw [if_pos hlen] at hF
      simp only [Option.some.injEq, Prod.mk.injEq] at hF
      obtain ⟨h1, h2⟩ := hF
      subst h1; subst h2
      exact ⟨rfl, hlen⟩
    · rw [if_neg hlen] at hF; simp at hF

/-- A "need more" result never consumes bytes. -/
theorem protobufDecode_needMore (buf r : List Nat)
    (h : protobufDecode buf = Except.ok (none, r)) : r = buf := by
  unfold protobufDecode at h
  by_cases h0 : buf.length = 0
  · rw [if_pos h0] at h
    simp only [Except.ok.injEq, Prod.mk.injEq] at h
    exact h.2.symm
  · rw [if_neg h0] at h
    cases hd : decodeVarint buf with
    | ok p =>
      obtain ⟨L, k⟩ := p
      rw [hd] at h
      simp only [] at h
      by_cases hlen : buf.length - k < L
      · rw [if_pos hlen] at h
        simp only [Except.ok.injEq, Prod.mk.injEq] at h
        exact h.2.symm
      · rw [if_neg hlen] at h
        simp at h
    | error e =>
      rw [hd] at h
      cases e with
      | truncated =>
        simp only [] at h
        simp only [Except.ok.injEq, Prod.mk.injEq] at h
        exact h.2.symm
      | malformed => simp at h

/-- Any strict leading cut of an accepted frame yields "need more" with the
buffer unconsumed. -/
theorem protobufDecode_short (F : List Nat) (L k : Nat)
    (hF : frameShape F = some (L, k)) (j : Nat) (hj : j < F.length) :
    protobufDecode (F.take j) = Except.ok (none, F.take j) := by
  obtain ⟨hd, hlen⟩ := frameShape_eq F L k hF
  have hcons := decodeVarintAux_consumed 10 F L k hd
  have hjlen : (F.take j).length = j := by
    rw [List.length_take]; omega
  by_cases hj0 : j = 0
  · subst hj0
    simp [protobufDecode]
  · rcases Nat.lt_or_ge j k with hjk | hjk
    · -- cut inside the varint prefix: truncated
      have htr : decodeVarint (F.take j) = Except.error VarintError.truncated :=
        decodeVarintAux_take_truncated 10 F L k hd j hjk
      unfold protobufDecode
      rw [if_neg (by omega), htr]
    · -- full prefix read, but fewer than `L` payload bytes available
      have hsplit : F.take j = F.take k ++ (F.drop k).take (j - k) := by
        conv_lhs => rw [show j = k + (j - k) by omega]
        exact List.take_add ..
      have hd' : decodeVarint (F.take j) = Except.ok (L, k) := by
        rw [hsplit]
        exact decodeVarintAux_take 10 F L k hd _
      unfold protobufDecode
      rw [if_neg (by omega), hd']
      simp only []
      rw [hjlen, if_pos (show j - k < L by omega)]

/-- On an accepted frame the decoder returns the payload and drains the
length of the *re-encoded* message: minimal varint of the payload length
plus payload. -/
theorem protobufDecode_frame (F : List Nat) (L k : Nat)
    (hF : frameShape F = some (L, k)) :
    protobufDecode F = Except.ok (some (F.drop k), F.drop ((encodeVarint L).length + L)) := by
  obtain ⟨hd, hlen⟩ := frameShape_eq F L k hF
  have hcons := decodeVarintAux_consumed 10 F L k hd
  have hdk : (F.drop k).length = L := by
    rw [List.length_drop]; omega
  have htake : (F.drop k).take L = F.drop k :=
    List.take_of_length_le (by omega)
  simp only [protobufDecode, if_neg (show ¬ F.length = 0 by omega), hd,
    if_neg (show ¬ F.length - k < L by omega)]
  rw [htake, hdk]

/-- A malformed (over-long) length prefix is a fatal codec error. -/
theorem protobufDecode_malformed (buf : List Nat)
    (h : decodeVarint buf = Except.error VarintError.malformed) :
    protobufDecode buf = Except.error "invalid varint" := by
  have h0 : buf.length ≠ 0 := by
    intro h0
    have hnil : buf = [] := List.length_eq_zero.mp h0
    subst hnil
    have hne : (Except.error VarintError.truncated : Except VarintError (Nat × Nat)) =
        Except.error VarintError.malformed := h
    simp at hne
  simp only [protobufDecode, if_neg h0, h]

/-- Decoding a minimally-encoded frame (the shape the encoder produces)
returns the payload and drains exactly the frame. -/
theorem protobufDecode_minimal (p rest : List Nat) (hp : p.length < 128 ^ 10) :
    protobufDecode (encodeVarint p.length ++ (p ++ rest)) = Except.ok (some p, rest) := by
  have hel : (encodeVarint p.length).length ≤ 10 := by
    have h9 : (9 : Nat) + 1 = 10 := rfl
    have := encodeVarint_length_le 9 p.length (by rw [h9]; exact hp)
    omega
  have hd : decodeVarint (encodeVarint p.length ++ (p ++ rest)) =
      Except.ok (p.length, (encodeVarint p.length).length) :=
    decodeVarintAux_encodeVarint p.length 10 (p ++ rest) hel
  have hpos := encodeVarint_length_pos p.length
  have hblen : (encodeVarint p.length ++ (p ++ rest)).length =
      (encodeVarint p.length).length + (p.length + rest.length) := by
    simp
  simp only [protobufDecode, if_neg (show ¬ (encodeVarint p.length ++ (p ++ rest)).length = 0 by omega),
    hd, if_neg (show ¬ (encodeVarint p.length ++ (p ++ rest)).length - (encodeVarint p.length).length < p.length by omega)]
  rw [List.drop_left, List.take_left]
  have hdrop : (encodeVarint p.length ++ (p ++ rest)).drop ((encodeVarint p.length).length + p.length) = rest := by
    rw [← List.append_assoc]
    exact List.drop_left' (by simp)
  rw [hdrop]

/-! ## Claim theorems -/

/-- **C2.** For every compile request: when argument classification succeeds
(the compile is accepted) the response is a streaming one with head
`CompileStarted` and a body of exactly one `CompileFinished` frame, after
which the stream terminates; when the compile is not accepted (unsupported
compiler, `NotCompilation`, or `CannotCache`) the response is a lone
`UnhandledCompile` frame with no streaming body. -/
theorem compile_response_frames (s : ServerStats) (compiler : Option Compiler)
    (parse : List String → String → CompilerArguments) (cmd : List String)
    (cwd : String) (result : Except Unit (CompileResult × Output)) :
    ((∃ c args, compiler = some c ∧ parse cmd cwd = CompilerArguments.ok args) →
      (check_compiler s compiler parse cmd cwd result).2 =
        SccacheResponse.withBody ServerResponseMsg.compileStarted
          [ServerResponseMsg.compileFinished (compile_task s result).2.1]) ∧
    ((compiler = none ∨ parse cmd cwd = CompilerArguments.cannotCache ∨
        parse cmd cwd = CompilerArguments.notCompilation) →
      (check_compiler s compiler parse cmd cwd result).2 =
        SccacheResponse.withoutBody ServerResponseMsg.unhandledCompile) := by
  constructor
  · rintro ⟨c, args, rfl, hparse⟩
    simp [check_compiler, hparse, compileBody]
  · rintro (rfl | hp | hp)
    · simp [check_compiler]
    · cases compiler with
      | none => simp [check_compiler]
      | some c => simp [check_compiler, hp]
    · cases compiler with
      | none => simp [check_compiler]
      | some c => simp [check_compiler, hp]

/-- Witness for C2 at concrete inputs: an accepted compile and an
unsupported-compiler request. -/
theorem compile_response_frames_witness :
    (check_compiler ServerStats.default (some ⟨"/usr/bin/gcc", 5⟩)
        (fun _ _ => CompilerArguments.ok ["a.o"]) ["gcc", "-c", "a.c"] "/tmp"
        (Except.ok (CompileResult.cacheHit 3, ⟨some 0, [], []⟩))).2 =
      SccacheResponse.withBody ServerResponseMsg.compileStarted
        [ServerResponseMsg.compileFinished ⟨some 0, [], []⟩] ∧
    (check_compiler ServerStats.default none
        (fun _ _ => CompilerArguments.ok ["a.o"]) ["true"] "/tmp"
        (Except.ok (CompileResult.cacheHit 3, ⟨some 0, [], []⟩))).2 =
      SccacheResponse.withoutBody ServerResponseMsg.unhandledCompile :=
  ⟨(compile_response_frames ServerStats.default (some ⟨"/usr/bin/gcc", 5⟩)
      (fun _ _ => CompilerArguments.ok ["a.o"]) ["gcc", "-c", "a.c"] "/tmp"
      (Except.ok (CompileResult.cacheHit 3, ⟨some 0, [], []⟩))).1 ⟨_, _, rfl, rfl⟩,
   (compile_response_frames ServerStats.default none
      (fun _ _ => CompilerArguments.ok ["a.o"]) ["true"] "/tmp"
      (Except.ok (CompileResult.cacheHit 3, ⟨some 0, [], []⟩))).2 (Or.inl rfl)⟩

/-- **C3.** With `SCCACHE_RECACHE` set (`force_recache` true) every accepted
compile runs under `CacheControl::ForceRecache`: the cache read is skipped
(the result is independent of the probe outcome), the write-back future is
still scheduled, and a completed forced-recache miss increments both
`cache_misses` and `forced_recaches` — two identical forced compiles from
fresh statistics yield `forced_recaches = 2`. -/
theorem force_recache_semantics (s : ServerStats) (probe probe' : CacheProbe)
    (out : Output) (wb : CacheWriteOutcome) (hok : out.status = some 0) :
    cacheControlFor true = CacheControl.forceRecache ∧
    (∀ cacheable, get_cached_or_compile CacheControl.forceRecache probe out cacheable wb =
        get_cached_or_compile CacheControl.forceRecache probe' out cacheable wb) ∧
    (start_compile_task s true probe out true wb).2.2 = some wb ∧
    (start_compile_task s true probe out true wb).1.cache_misses = s.cache_misses + 1 ∧
    (start_compile_task s true probe out true wb).1.forced_recaches = s.forced_recaches + 1 ∧
    (start_compile_task
        (start_compile_task ServerStats.default true probe out true wb).1
        true probe' out true wb).1.forced_recaches = 2 := by
  refine ⟨rfl, fun cacheable => rfl, ?_, ?_, ?_, ?_⟩
  all_goals
    simp [start_compile_task, cacheControlFor, get_cached_or_compile, hok,
      compile_task, statsAfterCompile, cacheWriteOf, ServerStats.default]

/-- Witness for C3: a concrete successful forced compile. -/
theorem force_recache_semantics_witness :
    (start_compile_task ServerStats.default true (CacheProbe.miss 7)
        ⟨some 0, [202], []⟩ true (CacheWriteOutcome.finished none)).2.2 =
      some (CacheWriteOutcome.finished none) ∧
    (start_compile_task
        (start_compile_task ServerStats.default true (CacheProbe.miss 7)
          ⟨some 0, [202], []⟩ true (CacheWriteOutcome.finished none)).1
        true (CacheProbe.hit 3 ⟨some 0, [], []⟩)
        ⟨some 0, [202], []⟩ true (CacheWriteOutcome.finished none)).1.forced_recaches = 2 :=
  ⟨(force_recache_semantics ServerStats.default (CacheProbe.miss 7)
      (CacheProbe.hit 3 ⟨some 0, [], []⟩) ⟨some 0, [202], []⟩
      (CacheWriteOutcome.finished none) rfl).2.2.1,
   (force_recache_semantics ServerStats.default (CacheProbe.miss 7)
      (CacheProbe.hit 3 ⟨some 0, [], []⟩) ⟨some 0, [202], []⟩
      (CacheWriteOutcome.finished none) rfl).2.2.2.2.2⟩

/-- **C4.** A compile whose cache probe fails with a read error is still
served by running the compile (the client gets the compile's own output),
the write-back is still scheduled, and `cache_read_errors` — not
`cache_misses` — is incremented. -/
theorem cache_read_error_semantics (s : ServerStats) (d : Nat) (out : Output)
    (wb : CacheWriteOutcome) (hok : out.status = some 0) :
    get_cached_or_compile CacheControl.default (CacheProbe.probeError d) out true wb =
      (CompileResult.cacheMiss MissType.cacheReadError d wb, out) ∧
    (start_compile_task s false (CacheProbe.probeError d) out true wb).1.cache_read_errors =
      s.cache_read_errors + 1 ∧
    (start_compile_task s false (CacheProbe.probeError d) out true wb).1.cache_misses =
      s.cache_misses ∧
    (start_compile_task s false (CacheProbe.probeError d) out true wb).2.2 = some wb ∧
    (start_compile_task s false (CacheProbe.probeError d) out true wb).2.1 =
      ⟨out.status, out.stdout, out.stderr⟩ := by
  refine ⟨?_, ?_, ?_, ?_, ?_⟩
  all_goals
    simp [start_compile_task, cacheControlFor, get_cached_or_compile, hok,
      compile_task, statsAfterCompile, cacheWriteOf]

/-- Witness for C4: a concrete compile served through a cache read error. -/
theorem cache_read_error_semantics_witness :
    (start_compile_task ServerStats.default false (CacheProbe.probeError 9)
        ⟨some 0, [1, 2], [3]⟩ true (CacheWriteOutcome.finished none)).1.cache_read_errors = 1 ∧
    (start_compile_task ServerStats.default false (CacheProbe.probeError 9)
        ⟨some 0, [1, 2], [3]⟩ true (CacheWriteOutcome.finished none)).1.cache_misses = 0 ∧
    (start_compile_task ServerStats.default false (CacheProbe.probeError 9)
        ⟨some 0, [1, 2], [3]⟩ true (CacheWriteOutcome.finished none)).2.1 =
      ⟨some 0, [1, 2], [3]⟩ :=
  ⟨(cache_read_error_semantics ServerStats.default 9 ⟨some 0, [1, 2], [3]⟩
      (CacheWriteOutcome.finished none) rfl).2.1,
   (cache_read_error_semantics ServerStats.default 9 ⟨some 0, [1, 2], [3]⟩
      (CacheWriteOutcome.finished none) rfl).2.2.1,
   (cache_read_error_semantics ServerStats.default 9 ⟨some 0, [1, 2], [3]⟩
      (CacheWriteOutcome.finished none) rfl).2.2.2.2⟩

/-- **C8.** An accepted compile whose pipeline resolves to `Err` still
produces a `CompileFinished` frame with sentinel retcode `-2`, and
`cache_errors` is incremented; no write-back is scheduled. -/
theorem internal_error_sentinel (s : ServerStats) :
    compile_task s (Except.error ()) =
      ({ s with cache_errors := s.cache_errors + 1 },
       ⟨some (-2), [], []⟩, none) ∧
    compileBody s (Except.error ()) =
      [ServerResponseMsg.compileFinished ⟨some (-2), [], []⟩] :=
  ⟨rfl, rfl⟩

/-- **C10.** Synthesizing the statistics report is total: the three average
duration entries divide the cumulative duration by the event count only
when the count is strictly positive, and report the literal `"0.000 s"`
when the count is zero. -/
theorem stats_report_no_div_by_zero (s : ServerStats) (d : Nat) :
    s.to_cache_statistics.get? 13 =
      some (durationStat "Average cache write" s.cache_write_duration s.cache_writes) ∧
    s.to_cache_statistics.get? 14 =
      some (durationStat "Average cache read miss" s.cache_read_miss_duration s.cache_misses) ∧
    s.to_cache_statistics.get? 15 =
      some (durationStat "Average cache read hit" s.cache_read_hit_duration s.cache_hits) ∧
    (∀ name, (durationStat name d 0).value = StatValue.str "0.000 s") ∧
    (∀ name n, 0 < n →
        (durationStat name d n).value = StatValue.str (formatDuration (d / n))) := by
  refine ⟨rfl, rfl, rfl, fun name => rfl, fun name n hn => ?_⟩
  simp [durationStat, hn]

/-- Witness for C10: a concrete division and a concrete zero count. -/
theorem stats_report_no_div_by_zero_witness :
    (durationStat "Average cache write" 5000000000 2).value =
      StatValue.str (formatDuration (5000000000 / 2)) ∧
    (durationStat "Average cache write" 5000000000 0).value = StatValue.str "0.000 s" :=
  ⟨(stats_report_no_div_by_zero ServerStats.default 5000000000).2.2.2.2
      "Average cache write" 2 (by decide),
   (stats_report_no_div_by_zero ServerStats.default 5000000000).2.2.2.1
      "Average cache write"⟩

/-- **C1 (counterexample).** A cached negative ("not a compiler")
compiler-info record is served again after the executable's mtime changed
from 5 to 6, so the claim that a second lookup after an mtime change never
serves the cached entry — positive or negative — is false on the code. -/
theorem compiler_info_negative_counterexample :
    fsBefore "/usr/bin/gcc" ≠ fsAfter "/usr/bin/gcc" ∧
    compiler_info_cached fsBefore [("/usr/bin/gcc", none)] "/usr/bin/gcc" = some none ∧
    compiler_info_cached fsAfter [("/usr/bin/gcc", none)] "/usr/bin/gcc" = some none := by
  refine ⟨by decide, rfl, rfl⟩

/-- **C1 (amended).** mtime gating governs positive records only: a positive
compiler-info record is served only when the current stat mtime equals the
recorded mtime; an mtime change or a failed stat invalidates it so
detection re-runs; a cached negative record, which stores no mtime, is
served whenever the stat succeeds, regardless of the mtime. -/
theorem compiler_info_mtime_gating (fs : FileSystem) (m : CompilerMap) (path : String) :
    (∀ c, compiler_info_cached fs m path = some (some c) →
        m.lookup path = some (some c) ∧ fs path = some c.mtime) ∧
    (fs path = none → compiler_info_cached fs m path = none) ∧
    (∀ c t, m.lookup path = some (some c) → fs path = some t → c.mtime ≠ t →
        compiler_info_cached fs m path = none) ∧
    (∀ t, m.lookup path = some none → fs path = some t →
        compiler_info_cached fs m path = some none) := by
  refine ⟨?_, ?_, ?_, ?_⟩
  · intro c h
    unfold compiler_info_cached at h
    cases hfs : fs path with
    | none => rw [hfs] at h; simp at h
    | some mtime =>
      rw [hfs] at h
      simp only [] at h
      cases hm : m.lookup path with
      | none => rw [hm] at h; simp at h
      | some o =>
        cases o with
        | none => rw [hm] at h; simp at h
        | some c' =>
          rw [hm] at h
          simp only [] at h
          by_cases hmt : c'.mtime = mtime
          · rw [if_pos hmt] at h
            simp only [Option.some.injEq] at h
            subst h
            exact ⟨rfl, by rw [hmt]⟩
          · rw [if_neg hmt] at h
            simp at h
  · intro h
    unfold compiler_info_cached
    rw [h]
  · intro c t hm hfs hne
    unfold compiler_info_cached
    rw [hfs]
    simp only []
    rw [hm]
    simp only []
    rw [if_neg hne]
  · intro t hm hfs
    unfold compiler_info_cached
    rw [hfs]
    simp only []
    rw [hm]

/-- Witness for C1 (amended): a positive record invalidated by an mtime
change, and a negative record served after the same change. -/
theorem compiler_info_mtime_gating_witness :
    compiler_info_cached fsAfter
      [("/usr/bin/gcc", some ⟨"/usr/bin/gcc", 5⟩)] "/usr/bin/gcc" = none ∧
    compiler_info_cached fsAfter
      [("/usr/bin/gcc", (none : Option Compiler))] "/usr/bin/gcc" = some none :=
  ⟨(compiler_info_mtime_gating fsAfter
      [("/usr/bin/gcc", some ⟨"/usr/bin/gcc", 5⟩)] "/usr/bin/gcc").2.2.1
      ⟨"/usr/bin/gcc", 5⟩ 6 rfl rfl (by decide),
   (compiler_info_mtime_gating fsAfter
      [("/usr/bin/gcc", (none : Option Compiler))] "/usr/bin/gcc").2.2.2
      6 rfl rfl⟩

/-- Draining a queue of `n + 1` request notifications re-arms the idle
deadline to `now + dur`, whatever deadline was previously armed. -/
theorem shutdown_poll_replicate (now dur : Nat) (hdur : 0 < dur) :
    ∀ n deadline, shutdown_or_inactive_poll now dur
        (List.replicate (n + 1) ServerMessage.request) false deadline =
      PollResult.notReady (now + dur) := by
  intro n
  induction n with
  | zero =>
    intro deadline
    simp only [List.replicate, shutdown_or_inactive_poll]
    rw [if_neg (by simp), if_neg (by omega)]
  | succ n ih =>
    intro deadline
    rw [List.replicate_succ]
    simp only [shutdown_or_inactive_poll]
    exact ih (now + dur)

/-- **C7.** The idle deadline is re-armed (to the configured idle duration
from the poll instant) by every `Request` notification the supervisor
receives and by nothing else: with no notifications the armed deadline is
unchanged, and if it has passed with no notification the server
terminates; completions of in-flight compile tasks and cache write-backs
produce no supervisor notification at all. -/
theorem idle_deadline_resets_only_on_requests (now dur deadline : Nat) (hdur : 0 < dur) :
    (∀ n, shutdown_or_inactive_poll now dur
        (List.replicate (n + 1) ServerMessage.request) false deadline =
      PollResult.notReady (now + dur)) ∧
    (now < deadline →
      shutdown_or_inactive_poll now dur [] false deadline = PollResult.notReady deadline) ∧
    (deadline ≤ now →
      shutdown_or_inactive_poll now dur [] false deadline = PollResult.ready) ∧
    supervisor_notifications ServerEvent.compileTaskFinished = [] ∧
    supervisor_notifications ServerEvent.cacheWriteFinished = [] := by
  refine ⟨fun n => shutdown_poll_replicate now dur hdur n deadline, ?_, ?_, rfl, rfl⟩
  · intro h
    simp only [shutdown_or_inactive_poll]
    rw [if_neg (by simp), if_neg (by omega)]
  · intro h
    simp only [shutdown_or_inactive_poll]
    rw [if_neg (by simp), if_pos h]

/-- Witness for C7 at concrete times: one queued request re-arms the
deadline; an expired deadline with an empty queue terminates. -/
theorem idle_deadline_witness :
    shutdown_or_inactive_poll 100 600000 (List.replicate 1 ServerMessage.request) false 42 =
      PollResult.notReady 600100 ∧
    shutdown_or_inactive_poll 100 600000 [] false 42 = PollResult.ready :=
  ⟨(idle_deadline_resets_only_on_requests 100 600000 42 (by decide)).1 0,
   (idle_deadline_resets_only_on_requests 100 600000 42 (by decide)).2.2.1 (by decide)⟩

/-- **C9.** In the trace of a `Shutdown` request the awaited delivery of
`ServerMessage::Shutdown` strictly precedes the `ShuttingDown` reply,
whereas no other request performs an awaited send: their single
notification is the best-effort `start_send` of `ServerMessage::Request`
that every request fires first, which is silently dropped when the
capacity-1 channel is full. -/
theorem shutdown_reply_after_delivery :
    (call_actions ClientReq.shutdown).get? 1 =
      some (CallAction.sendAwait ServerMessage.shutdown) ∧
    (call_actions ClientReq.shutdown).get? 2 =
      some (CallAction.reply RespKind.shuttingDown) ∧
    (∀ r : ClientReq, r ≠ ClientReq.shutdown →
        ∀ msg, CallAction.sendAwait msg ∉ call_actions r) ∧
    (∀ r : ClientReq, (call_actions r).head? =
        some (CallAction.sendBestEffort ServerMessage.request)) ∧
    (∀ pending msg, try_send (some pending) msg = some pending) := by
  refine ⟨rfl, rfl, ?_, ?_, fun pending msg => rfl⟩
  · intro r hr msg
    cases r with
    | compile exe command cwd => simp [call_actions]
    | getStats => simp [call_actions]
    | zeroStats => simp [call_actions]
    | shutdown => exact absurd rfl hr
    | unknown => simp [call_actions]
  · intro r
    cases r <;> rfl

/-- Witness for C9: a stats request performs no awaited send, and a
best-effort send on a full channel is dropped. -/
theorem shutdown_reply_after_delivery_witness :
    CallAction.sendAwait ServerMessage.shutdown ∉ call_actions ClientReq.getStats ∧
    try_send (some ServerMessage.request) ServerMessage.shutdown =
      some ServerMessage.request :=
  ⟨shutdown_reply_after_delivery.2.2.1 ClientReq.getStats (by decide)
      ServerMessage.shutdown,
   shutdown_reply_after_delivery.2.2.2.2 ServerMessage.request ServerMessage.shutdown⟩

/-- **C5 (counterexample).** The buffer `[128, 0]` is one complete frame —
a redundant two-byte varint encoding of payload length 0 followed by the
empty payload — and the decoder accepts it; but it drains only one byte
(the length of the re-encoded message), leaving `[0]` in the buffer
instead of draining the two bytes the frame occupies. -/
theorem decoder_drain_counterexample :
    frameShape [128, 0] = some (0, 2) ∧
    protobufDecode [128, 0] = Except.ok (some [], [0]) ∧
    ([0] : List Nat) ≠ [] :=
  ⟨rfl, rfl, by decide⟩

/-- **C5 (amended).** Decoder contract: any strict leading cut of an
accepted frame yields "need more"; a "need more" result never consumes
bytes; a structural (non-truncation) error in the length prefix is a fatal
codec error; an accepted frame yields its payload and drains the byte
length of the *re-encoded* message — minimal varint of the payload length
plus payload — which equals the frame's own size exactly when the frame's
length prefix is minimally encoded (as in every encoder-produced frame). -/
theorem decoder_contract (F : List Nat) (L k : Nat) (hF : frameShape F = some (L, k)) :
    (∀ j, j < F.length → protobufDecode (F.take j) = Except.ok (none, F.take j)) ∧
    (∀ buf r, protobufDecode buf = Except.ok (none, r) → r = buf) ∧
    (∀ buf, decodeVarint buf = Except.error VarintError.malformed →
        protobufDecode buf = Except.error "invalid varint") ∧
    protobufDecode F = Except.ok (some (F.drop k), F.drop ((encodeVarint L).length + L)) ∧
    (F = encodeVarint L ++ F.drop k →
        protobufDecode F = Except.ok (some (F.drop k), [])) := by
  obtain ⟨hd, hlen⟩ := frameShape_eq F L k hF
  refine ⟨fun j hj => protobufDecode_short F L k hF j hj,
    protobufDecode_needMore, protobufDecode_malformed,
    protobufDecode_frame F L k hF, ?_⟩
  intro hmin
  rw [protobufDecode_frame F L k hF]
  have hk : (encodeVarint L).length = k := by
    have hl2 : F.length = (encodeVarint L ++ F.drop k).length := by rw [← hmin]
    rw [List.length_append, List.length_drop] at hl2
    have hcons := decodeVarintAux_consumed 10 F L k hd
    omega
  have hnil : F.drop ((encodeVarint L).length + L) = [] := by
    rw [hk]
    exact List.drop_eq_nil_of_le (by omega)
  rw [hnil]

/-- Witness for C5 at a concrete minimal frame: `[2, 10, 20]` (length
prefix 2, payload `[10, 20]`): its strict cut `[2, 10]` needs more bytes
with nothing consumed, and the full frame decodes draining everything. -/
theorem decoder_contract_witness :
    frameShape [2, 10, 20] = some (2, 1) ∧
    protobufDecode [2, 10] = Except.ok (none, [2, 10]) ∧
    protobufDecode [2, 10, 20] = Except.ok (some [10, 20], []) :=
  ⟨rfl,
   (decoder_contract [2, 10, 20] 2 1 rfl).1 2 (by decide),
   (decoder_contract [2, 10, 20] 2 1 rfl).2.2.2.1⟩

/-- **C6 (counterexample).** `[128, 0]` is a well-formed frame (the
decoder accepts it as one complete message, with empty payload), yet
re-encoding the decoded message produces `[0]`, not `[128, 0]`:
`encode(decode(F)) = F` fails on redundantly prefixed frames. -/
theorem roundtrip_counterexample :
    protobufDecode [128, 0] = Except.ok (some [], [0]) ∧
    protobufEncode [] [] = [0] ∧
    ([0] : List Nat) ≠ [128, 0] :=
  ⟨rfl, rfl, by decide⟩

/-- **C6 (amended).** `encode ∘ decode` is the identity exactly on the
minimally prefixed frames — the frames the encoder itself produces:
decoding `encodeVarint p.length ++ p` yields payload `p` with the whole
frame drained, and re-encoding `p` reproduces that frame byte-for-byte.
(The decoder also accepts redundant length prefixes, for which re-encoding
yields the shorter canonical frame, as the counterexample shows.) -/
theorem roundtrip_on_minimal_frames (p : List Nat) (hp : p.length < 128 ^ 10) :
    protobufDecode (encodeVarint p.length ++ p) = Except.ok (some p, []) ∧
    protobufEncode p [] = encodeVarint p.length ++ p := by
  constructor
  · have h := protobufDecode_minimal p [] hp
    simpa using h
  · simp [protobufEncode]

/-- Witness for C6: the round trip at the concrete payload `[10, 20]`. -/
theorem roundtrip_on_minimal_frames_witness :
    protobufDecode (encodeVarint 2 ++ [10, 20]) = Except.ok (some [10, 20], []) ∧
    protobufEncode [10, 20] [] = encodeVarint 2 ++ [10, 20] :=
  ⟨(roundtrip_on_minimal_frames [10, 20] (by norm_num)).1,
   (roundtrip_on_minimal_frames [10, 20] (by norm_num)).2⟩

end Sccache
